import Mathlib

/-!
Verification of the temporal-correlation and density-clustering engine of the
repository (Python sources under src/inspect/).  Each Python function the
claims touch is shallowly embedded as a Lean definition over ℝ (overlap scores
and distances are Python floats; we model them as real numbers, and the
external scipy `norm.cdf` as an arbitrary real-valued parameter function).
IEEE-float special values (inf / nan), which matter for the OPTICS confidence
formula of src/inspect/analysis/cluster.py, are modelled by the `EFloat` type.
-/

/- src/inspect/analysis/overlap.py, overlap_to_distance (decay constant alpha = 13):
   converts overlap to a distance in [0, 1] via exponential decay
   f = e^[-alpha*(overlap/max_overlap)]. -/
noncomputable def overlap_to_distance (overlap max_overlap : ℝ) : ℝ :=
  -- alpha = 13
  if overlap ≤ 0 then 1
  else if overlap ≥ max_overlap then 0
  else Real.exp (-13 * (overlap / max_overlap))

/- src/inspect/analysis/main.py, overlap_to_distance (decay constant alpha = 3):
   same piecewise structure, different decay rate. -/
noncomputable def main_overlap_to_distance (overlap max_overlap : ℝ) : ℝ :=
  -- alpha = 3
  if overlap ≤ 0 then 1
  else if overlap ≥ max_overlap then 0
  else Real.exp (-3 * (overlap / max_overlap))

/- src/inspect/analysis/overlap.py, overlap_area: closed-form pulse overlap.
   scipy.stats.norm.cdf is external to the repository, so the embedding is
   parameterized over it; argument order matches norm.cdf(x, mean, std_dev).
   lower_limit = max(mean1, mean2) - cutoff,
   upper_limit = min(mean1, mean2) + cutoff, middle = (mean1 + mean2) / 2;
   the bigger-mean Gaussian CDF at the middle is doubled. -/
noncomputable def overlap_area (cdf : ℝ → ℝ → ℝ → ℝ)
    (mean1 std_dev1 mean2 std_dev2 cutoff : ℝ) : ℝ :=
  if max mean1 mean2 - cutoff ≥ min mean1 mean2 + cutoff then 0
  else
    (if mean1 > mean2 then cdf ((mean1 + mean2) / 2) mean1 std_dev1
     else cdf ((mean1 + mean2) / 2) mean2 std_dev2) * 2

/- src/inspect/plot_overlap_gaussian.py, overlap_area: numerical-quadrature
   pulse overlap.  scipy.integrate.quad and norm.pdf are external, so the
   embedding is parameterized over the integrator and the pdf.
   lower_limit = max(mean1 - cutoff, mean2 - cutoff),
   upper_limit = min(mean1 + cutoff, mean2 + cutoff); the integrand is the
   pointwise minimum of the two Gaussians. -/
noncomputable def overlap_area_num (integrate : (ℝ → ℝ) → ℝ → ℝ → ℝ)
    (pdf : ℝ → ℝ → ℝ → ℝ) (mean1 std_dev1 mean2 std_dev2 cutoff : ℝ) : ℝ :=
  if max (mean1 - cutoff) (mean2 - cutoff) ≥ min (mean1 + cutoff) (mean2 + cutoff)
  then 0
  else
    integrate (fun x => min (pdf x mean1 std_dev1) (pdf x mean2 std_dev2))
      (max (mean1 - cutoff) (mean2 - cutoff)) (min (mean1 + cutoff) (mean2 + cutoff))

/- src/inspect/analysis/compare.py, total_overlap: the sum over every pair
   (t1 in times1, t2 in times2) of the pairwise pulse overlap, both pulses
   with the same std_dev. -/
noncomputable def total_overlap (cdf : ℝ → ℝ → ℝ → ℝ)
    (times1 times2 : List ℝ) (std_dev cutoff : ℝ) : ℝ :=
  (times1.map (fun t1 =>
    (times2.map (fun t2 => overlap_area cdf t1 std_dev t2 std_dev cutoff)).sum)).sum

/- Maximum of a list with the head as the initial accumulator (np.max on a
   non-empty array; np.max raises on an empty array, modelled as 0). -/
noncomputable def listMaxD : List ℝ → ℝ
  | [] => 0
  | x :: xs => xs.foldl max x

/- np.max over all entries of an n×n matrix. -/
noncomputable def matMax (n : ℕ) (m : Fin n → Fin n → ℝ) : ℝ :=
  listMaxD (((List.finRange n).map
    (fun i => (List.finRange n).map (fun j => m i j))).flatten)

/- src/inspect/analysis/compare.py, calculate_pairwise_overlaps, for one
   std_dev: the zero-initialized matrix gets, for each pair i < j,
   total_overlap(times i, times j, std_dev, std_dev * cutoff_factor) mirrored
   into (i, j) and (j, i); pairs with i ≥ j are skipped by the `continue`, so
   the diagonal stays 0. -/
noncomputable def calculate_pairwise_overlaps (cdf : ℝ → ℝ → ℝ → ℝ) (n : ℕ)
    (sid_times : Fin n → List ℝ) (std_dev cutoff_factor : ℝ) :
    Fin n → Fin n → ℝ :=
  fun i j =>
    if i = j then 0
    else if i < j then
      total_overlap cdf (sid_times i) (sid_times j) std_dev (std_dev * cutoff_factor)
    else
      total_overlap cdf (sid_times j) (sid_times i) std_dev (std_dev * cutoff_factor)

/- src/inspect/analysis/compare.py, create_distance_matrix: max_overlap is the
   maximum over the whole input matrix; every cell is transformed by
   overlap_to_distance (the alpha = 13 transform imported from overlap.py). -/
noncomputable def create_distance_matrix (n : ℕ) (m : Fin n → Fin n → ℝ) :
    Fin n → Fin n → ℝ :=
  fun i j => overlap_to_distance (m i j) (matMax n m)

/- A cooccurrence table as produced by the external loaders (load_map in
   main.py, load_cooc in load_protos.py): StreamID → StreamID → overlap.
   Python dicts are modelled as association lists. -/
abbrev CoocRow := List (String × ℝ)

abbrev CoocData := List (String × CoocRow)

/- Python dict lookup: some value when the key is present, none otherwise. -/
def dictLookup {α : Type} : List (String × α) → String → Option α
  | [], _ => none
  | (k, v) :: rest, key => if k = key then some v else dictLookup rest key

/- src/inspect/analysis/cluster.py, main.distance_func: looks the two indexed
   StreamIDs up in the cooccurrence table, defaulting the overlap to 0 when
   the pair has no entry (cooc_data[sid1].get(sid2, 0)), and converts it to a
   distance with the alpha = 13 transform imported from overlap.py.  The
   sklearn metric receives each index wrapped in a singleton sample list.
   sid1 is always a key of cooc_data and the indices are always in range for
   the inputs the clusterer produces; the embedding uses defaults there. -/
noncomputable def distance_func (sids : List String) (cooc_data : CoocData)
    (max_overlap : ℝ) (idx1 idx2 : List ℕ) : ℝ :=
  overlap_to_distance
    ((dictLookup ((dictLookup cooc_data (sids.getD (idx1.headD 0) "")).getD [])
        (sids.getD (idx2.headD 0) "")).getD 0)
    max_overlap

/- The heatmap built by graph_data, indexed by ℕ matrix positions. -/
abbrev Heatmap := ℕ → ℕ → ℝ

/- A single numpy cell assignment heatmap_data[i, j] = v. -/
def setCell (m : Heatmap) (i j : ℕ) (v : ℝ) : Heatmap :=
  fun a b => if a = i ∧ b = j then v else m a b

/- Inner loop of graph_data (src/inspect/analysis/data_insights.py lines
   33-45): for each enumerated (j, sid_j) with an entry in sid_i's row, the
   loop first checks heatmap_data[i, j] + heatmap_data[j, i] < 2 (both cells
   default to 1, so the sum drops below 2 exactly when a previous record
   already wrote a non-default value) and on that duplicate signal aborts the
   whole build; otherwise it writes the transformed distance into
   (max i j, min i j) and then (min i j, max i j). -/
noncomputable def graphInner (row : CoocRow) (max_overlap : ℝ) (i : ℕ) :
    List (ℕ × String) → Heatmap → Except String Heatmap
  | [], m => .ok m
  | (j, sid_j) :: rest, m =>
    match dictLookup row sid_j with
    | none => graphInner row max_overlap i rest m
    | some ov =>
      if m i j + m j i < 2 then .error "Duplicate entry found"
      else
        graphInner row max_overlap i rest
          (setCell
            (setCell m (max i j) (min i j) (overlap_to_distance ov max_overlap))
            (min i j) (max i j) (overlap_to_distance ov max_overlap))

/- Outer loop of graph_data: enumerated StreamIDs missing from the table are
   skipped; any duplicate signal from the inner loop aborts the build. -/
noncomputable def graphOuter (cooc_data : CoocData) (max_overlap : ℝ)
    (inner_sids : List (ℕ × String)) :
    List (ℕ × String) → Heatmap → Except String Heatmap
  | [], m => .ok m
  | (i, sid_i) :: rest, m =>
    match dictLookup cooc_data sid_i with
    | none => graphOuter cooc_data max_overlap inner_sids rest m
    | some row =>
      match graphInner row max_overlap i inner_sids m with
      | .error e => .error e
      | .ok m2 => graphOuter cooc_data max_overlap inner_sids rest m2

/- src/inspect/analysis/data_insights.py, graph_data, matrix-building phase
   (the identical loop appears in src/inspect/analysis/main.py graph_data):
   starts from a ones matrix (maximal-distance default).  The Python
   print-and-early-return on a duplicate entry is the .error case of the
   Except result (fallible code returns Except in this embedding); .ok holds
   the completed heatmap.  The later plotting of the completed heatmap is
   external presentation code and is not part of the build. -/
noncomputable def graph_data (sids : List String) (cooc_data : CoocData)
    (max_overlap : ℝ) : Except String Heatmap :=
  graphOuter cooc_data max_overlap sids.enum sids.enum (fun _ _ => 1)

/- IEEE-754 double values as they arise in the confidence computation of
   src/inspect/analysis/cluster.py: finite values (modelled as exact
   rationals), the two infinities, and NaN. -/
inductive EFloat where
  | val : ℚ → EFloat
  | inf : EFloat
  | negInf : EFloat
  | nan : EFloat
deriving DecidableEq

namespace EFloat

/- IEEE strict greater-than; every comparison involving NaN is false. -/
def gt : EFloat → EFloat → Bool
  | val a, val b => decide (b < a)
  | inf, val _ => true
  | inf, negInf => true
  | val _, negInf => true
  | _, _ => false

/- IEEE subtraction on the values reachable here (no -0 distinction in ℚ). -/
def sub : EFloat → EFloat → EFloat
  | nan, _ => nan
  | _, nan => nan
  | val a, val b => val (a - b)
  | val _, inf => negInf
  | val _, negInf => inf
  | inf, val _ => inf
  | negInf, val _ => negInf
  | inf, inf => nan
  | inf, negInf => inf
  | negInf, inf => negInf
  | negInf, negInf => nan

/- IEEE division on the values reachable here: finite/±inf gives 0,
   ±inf/±inf gives NaN, division of a nonzero value by zero gives a signed
   infinity and 0/0 gives NaN (numpy float64 semantics, no exception). -/
def div : EFloat → EFloat → EFloat
  | nan, _ => nan
  | _, nan => nan
  | val a, val b =>
      if b = 0 then (if a = 0 then nan else if 0 < a then inf else negInf)
      else val (a / b)
  | val _, inf => val 0
  | val _, negInf => val 0
  | inf, val b => if b < 0 then negInf else inf
  | negInf, val b => if b < 0 then inf else negInf
  | inf, inf => nan
  | inf, negInf => nan
  | negInf, inf => nan
  | negInf, negInf => nan

end EFloat

/- Python builtin max over a list: the head seeds the running best and each
   later element replaces it only when strictly greater (so comparisons with
   NaN keep the current best).  Python raises on an empty list; the empty
   case is modelled as NaN and never reached by the code. -/
def pyMax : List EFloat → EFloat
  | [] => .nan
  | x :: xs => xs.foldl (fun m y => if EFloat.gt y m then y else m) x

/- src/inspect/analysis/cluster.py, cluster_data, OPTICS branch: per-item
   membership confidences computed from the core distances as
   [1 - (core_dist[i] / max(core_dist)) for i in range(len(core_dist))]. -/
def probabilities (core_dist : List EFloat) : List EFloat :=
  core_dist.map (fun c => EFloat.sub (.val 1) (EFloat.div c (pyMax core_dist)))

/- Reference maximum of a rational list (head-seeded left fold of max): what
   pyMax computes when every element is finite. -/
def qMax : List ℚ → ℚ
  | [] => 0
  | x :: xs => xs.foldl max x

/-- Both distance transforms land in [0, 1] on every input. -/
lemma overlap_to_distance_mem (o M : ℝ) :
    0 ≤ overlap_to_distance o M ∧ overlap_to_distance o M ≤ 1 := by
  unfold overlap_to_distance
  split_ifs with h1 h2
  · constructor <;> norm_num
  · constructor <;> norm_num
  · push_neg at h1 h2
    have hM : 0 < M := lt_trans h1 h2
    have harg : -13 * (o / M) < 0 := by
      have : 0 < o / M := div_pos h1 hM
      nlinarith
    refine ⟨le_of_lt (Real.exp_pos _), ?_⟩
    calc Real.exp (-13 * (o / M)) ≤ Real.exp 0 := Real.exp_le_exp.mpr (le_of_lt harg)
      _ = 1 := Real.exp_zero

/-- C3: for every max_overlap M > 0, both distance transforms map overlap 0 to
distance 1 and overlap M to distance 0. -/
theorem C3_transform_bounds (M : ℝ) (hM : 0 < M) :
    overlap_to_distance 0 M = 1 ∧ overlap_to_distance M M = 0 ∧
    main_overlap_to_distance 0 M = 1 ∧ main_overlap_to_distance M M = 0 := by
  unfold overlap_to_distance main_overlap_to_distance
  refine ⟨by norm_num, ?_, by norm_num, ?_⟩ <;>
    · rw [if_neg (by linarith), if_pos (le_refl M)]

/-- C3 witness at M = 1. -/
theorem C3_transform_bounds_witness :
    overlap_to_distance 0 1 = 1 ∧ overlap_to_distance 1 1 = 0 ∧
    main_overlap_to_distance 0 1 = 1 ∧ main_overlap_to_distance 1 1 = 0 :=
  C3_transform_bounds 1 (by norm_num)

/-- C4: if max_overlap is 0 and the supplied overlap o satisfies o ≤ 0, both
distance transforms return 1; the functions are total, so no error is raised. -/
theorem C4_degenerate_max (o : ℝ) (h : o ≤ 0) :
    overlap_to_distance o 0 = 1 ∧ main_overlap_to_distance o 0 = 1 := by
  unfold overlap_to_distance main_overlap_to_distance
  rw [if_pos h, if_pos h]
  exact ⟨rfl, rfl⟩

/-- C4 witness at o = 0. -/
theorem C4_degenerate_max_witness :
    overlap_to_distance 0 0 = 1 ∧ main_overlap_to_distance 0 0 = 1 :=
  C4_degenerate_max 0 (le_refl 0)

/-- C8: for fixed max_overlap M > 0 the transform with alpha = 13 is
monotonically non-increasing in the overlap argument. -/
theorem C8_monotone (M o1 o2 : ℝ) (hM : 0 < M) (h : o1 ≤ o2) :
    overlap_to_distance o2 M ≤ overlap_to_distance o1 M := by
  unfold overlap_to_distance
  split_ifs <;>
    first
      | rfl
      | exact zero_le_one
      | exact le_of_lt (Real.exp_pos _)
      | linarith
      | -- exp of a non-positive argument is at most 1
        (rename_i ho2 _ _
         push_neg at ho2
         refine Real.exp_le_one_iff.mpr ?_
         have : 0 < o2 / M := div_pos ho2 hM
         nlinarith)
      | -- both arguments in the interior: exponential monotonicity
        (refine Real.exp_le_exp.mpr ?_
         have hdiv : o1 / M ≤ o2 / M := by
           exact div_le_div_of_nonneg_right h hM.le
         nlinarith)

/-- C8 witness at M = 1, o1 = 0, o2 = 1. -/
theorem C8_monotone_witness :
    overlap_to_distance 1 1 ≤ overlap_to_distance 0 1 :=
  C8_monotone 1 0 1 (by norm_num) (by norm_num)

/-- C9: the two overlap_to_distance implementations (alpha = 13 in overlap.py,
alpha = 3 in main.py) agree whenever overlap ≤ 0 or overlap ≥ max_overlap, but
differ at the interior input overlap = 1, max_overlap = 2. -/
theorem C9_two_transforms_differ :
    (∀ o M : ℝ, (o ≤ 0 ∨ o ≥ M) →
      overlap_to_distance o M = main_overlap_to_distance o M) ∧
    (0:ℝ) < 1 ∧ (1:ℝ) < 2 ∧
    overlap_to_distance 1 2 ≠ main_overlap_to_distance 1 2 := by
  refine ⟨?_, by norm_num, by norm_num, ?_⟩
  · intro o M h
    unfold overlap_to_distance main_overlap_to_distance
    rcases h with h | h
    · rw [if_pos h, if_pos h]
    · split_ifs <;> rfl
  · unfold overlap_to_distance main_overlap_to_distance
    rw [if_neg (by norm_num), if_neg (by norm_num), if_neg (by norm_num),
      if_neg (by norm_num)]
    intro hcontra
    have hlt : Real.exp (-13 * ((1:ℝ) / 2)) < Real.exp (-3 * ((1:ℝ) / 2)) :=
      Real.exp_lt_exp.mpr (by norm_num)
    exact absurd hcontra (ne_of_lt hlt)

/-- C9 witness: agreement on the boundary branch at o = -1, M = 5. -/
theorem C9_two_transforms_differ_witness :
    overlap_to_distance (-1) 5 = main_overlap_to_distance (-1) 5 :=
  C9_two_transforms_differ.1 (-1) 5 (Or.inl (by norm_num))

/-- The pairwise pulse overlap is symmetric in the two means when both pulses
share the same standard deviation (as every call from total_overlap does). -/
lemma overlap_area_swap (cdf : ℝ → ℝ → ℝ → ℝ) (a b sd cutoff : ℝ) :
    overlap_area cdf a sd b sd cutoff = overlap_area cdf b sd a sd cutoff := by
  unfold overlap_area
  rw [max_comm b a, min_comm b a, add_comm b a]
  by_cases hw : max a b - cutoff ≥ min a b + cutoff
  · rw [if_pos hw, if_pos hw]
  · rw [if_neg hw, if_neg hw]
    congr 1
    rcases lt_trichotomy a b with h | h | h
    · rw [if_neg (not_lt.mpr h.le), if_pos h]
    · subst h
      rfl
    · rw [if_pos h, if_neg (not_lt.mpr h.le)]

/-- Sums distribute over pointwise addition of mapped functions. -/
lemma sum_map_add_real (g h : ℝ → ℝ) (l : List ℝ) :
    (l.map (fun x => g x + h x)).sum = (l.map g).sum + (l.map h).sum := by
  induction l with
  | nil => simp
  | cons x xs ih =>
      simp only [List.map_cons, List.sum_cons, ih]
      ring

/-- The order of the two nested summations can be exchanged. -/
lemma sum_sum_swap (f : ℝ → ℝ → ℝ) (A B : List ℝ) :
    (A.map (fun a => (B.map (fun b => f a b)).sum)).sum
      = (B.map (fun b => (A.map (fun a => f a b)).sum)).sum := by
  induction A with
  | nil => simp
  | cons a as ih =>
      simp only [List.map_cons, List.sum_cons, ih]
      exact (sum_map_add_real (fun b => f a b)
        (fun b => (as.map (fun x => f x b)).sum) B).symm

/-- C6: the overlap score is commutative in the two timestamp lists for any
fixed spread and cutoff (and any CDF implementation). -/
theorem C6_total_overlap_comm (cdf : ℝ → ℝ → ℝ → ℝ)
    (A B : List ℝ) (sd cutoff : ℝ) :
    total_overlap cdf A B sd cutoff = total_overlap cdf B A sd cutoff := by
  unfold total_overlap
  rw [sum_sum_swap]
  have hfun : (fun b => (A.map (fun a => overlap_area cdf a sd b sd cutoff)).sum)
      = (fun b => (A.map (fun a => overlap_area cdf b sd a sd cutoff)).sum) := by
    funext b
    have harg : (fun a => overlap_area cdf a sd b sd cutoff)
        = (fun a => overlap_area cdf b sd a sd cutoff) := by
      funext a
      exact overlap_area_swap cdf a b sd cutoff
    rw [harg]
  rw [hfun]

/-- C7: a pair of timestamps whose truncation window is empty contributes
exactly 0 to the overlap (both for the closed-form and the quadrature
implementation), and in particular the total overlap of timestamp lists [0]
and [1000] with spread 1 and cutoff 4 is 0. -/
theorem C7_empty_window (cdf : ℝ → ℝ → ℝ → ℝ)
    (integrate : (ℝ → ℝ) → ℝ → ℝ → ℝ) (pdf : ℝ → ℝ → ℝ → ℝ) :
    (∀ ta sd1 tb sd2 cutoff : ℝ, max ta tb - cutoff ≥ min ta tb + cutoff →
      overlap_area cdf ta sd1 tb sd2 cutoff = 0
        ∧ overlap_area_num integrate pdf ta sd1 tb sd2 cutoff = 0) ∧
    total_overlap cdf [0] [1000] 1 4 = 0 := by
  constructor
  · intro ta sd1 tb sd2 cutoff h
    constructor
    · unfold overlap_area
      rw [if_pos h]
    · unfold overlap_area_num
      rw [if_pos (by rw [max_sub_sub_right, min_add_add_right]; exact h)]
  · have hz : overlap_area cdf 0 1 1000 1 4 = 0 := by
      unfold overlap_area
      rw [if_pos (by
        rw [max_eq_right (by norm_num : (0:ℝ) ≤ 1000),
          min_eq_left (by norm_num : (0:ℝ) ≤ 1000)]
        norm_num)]
    simp [total_overlap, hz]

/-- C7 witness: the concrete far-apart pair (0, 1000) with cutoff 4. -/
theorem C7_empty_window_witness :
    overlap_area (fun _ _ _ => 0) 0 1 1000 1 4 = 0 ∧
    overlap_area_num (fun _ _ _ => 0) (fun _ _ _ => 0) 0 1 1000 1 4 = 0 :=
  (C7_empty_window (fun _ _ _ => 0) (fun _ _ _ => 0) (fun _ _ _ => 0)).1
    0 1 1000 1 4 (by
      rw [max_eq_right (by norm_num : (0:ℝ) ≤ 1000),
        min_eq_left (by norm_num : (0:ℝ) ≤ 1000)]
      norm_num)

/-- C5: the distance matrix built from per-pair overlaps is exactly symmetric,
and every off-diagonal entry lies in [0, 1]. -/
theorem C5_distance_matrix (cdf : ℝ → ℝ → ℝ → ℝ) (n : ℕ)
    (sid_times : Fin n → List ℝ) (std_dev cutoff_factor : ℝ) :
    (∀ i j : Fin n,
      create_distance_matrix n (calculate_pairwise_overlaps cdf n sid_times std_dev cutoff_factor) i j
        = create_distance_matrix n (calculate_pairwise_overlaps cdf n sid_times std_dev cutoff_factor) j i) ∧
    (∀ i j : Fin n, i ≠ j →
      0 ≤ create_distance_matrix n (calculate_pairwise_overlaps cdf n sid_times std_dev cutoff_factor) i j ∧
      create_distance_matrix n (calculate_pairwise_overlaps cdf n sid_times std_dev cutoff_factor) i j ≤ 1) := by
  have hsymm : ∀ i j : Fin n,
      calculate_pairwise_overlaps cdf n sid_times std_dev cutoff_factor i j
        = calculate_pairwise_overlaps cdf n sid_times std_dev cutoff_factor j i := by
    intro i j
    unfold calculate_pairwise_overlaps
    rcases lt_trichotomy i j with h | h | h
    · rw [if_neg (ne_of_lt h), if_pos h, if_neg (ne_of_gt h),
        if_neg (not_lt.mpr h.le)]
    · subst h
      rfl
    · rw [if_neg (ne_of_gt h), if_neg (not_lt.mpr h.le), if_neg (ne_of_lt h),
        if_pos h]
  constructor
  · intro i j
    unfold create_distance_matrix
    rw [hsymm i j]
  · intro i j _
    unfold create_distance_matrix
    exact overlap_to_distance_mem _ _

/-- C10: a pair of stream indices whose StreamID pair has no entry in the
precomputed overlap table is treated as overlap 0 by the clusterer's distance
function and receives the maximal distance 1; the embedded function is total,
so no error is raised. -/
theorem C10_missing_pair (sids : List String) (cooc_data : CoocData)
    (max_overlap : ℝ) (i j : ℕ)
    (h : dictLookup ((dictLookup cooc_data (sids.getD i "")).getD [])
        (sids.getD j "") = none) :
    distance_func sids cooc_data max_overlap [i] [j] = 1 := by
  unfold distance_func
  simp only [List.headD_cons]
  rw [h]
  simp only [Option.getD_none]
  unfold overlap_to_distance
  rw [if_pos (le_refl (0:ℝ))]

/-- C10 witness: two streams with empty rows; the pair (0, 1) has no entry. -/
theorem C10_missing_pair_witness :
    distance_func ["a", "b"] [("a", []), ("b", [])] 10 [0] [1] = 1 :=
  C10_missing_pair ["a", "b"] [("a", []), ("b", [])] 10 0 1 rfl

/-- C1 counterexample: the contradictory pair A→B = 0, B→A = 7 (overlap
entries 0 and 7 for the same unordered pair) does NOT abort the build: the
first-processed entry maps to the default distance 1, so the duplicate check
never fires and the build completes, silently overwriting the mirrored cells
with the second value. -/
theorem C1_counterexample :
    (graph_data ["A", "B"] [("A", [("B", 0)]), ("B", [("A", 7)])] 10).isOk
      = true := by
  have henum : (["A", "B"] : List String).enum = [(0, "A"), (1, "B")] := rfl
  unfold graph_data
  rw [henum]
  simp [graphOuter, graphInner, dictLookup, setCell]
  norm_num [overlap_to_distance]
  norm_num [setCell]
  rfl

/-- C1 amended: with the contradictory entries A→B = 10 and B→A = 7 (the
first-processed entry having positive overlap, hence a non-default mirrored
distance), the build aborts with the duplicate-entry error and no heatmap is
produced. -/
theorem C1_amended_duplicate_abort :
    graph_data ["A", "B"] [("A", [("B", 10)]), ("B", [("A", 7)])] 10
      = .error "Duplicate entry found" := by
  have henum : (["A", "B"] : List String).enum = [(0, "A"), (1, "B")] := rfl
  unfold graph_data
  rw [henum]
  simp [graphOuter, graphInner, dictLookup, setCell]
  norm_num [overlap_to_distance]
  norm_num [setCell]

/-- C5 witness at n = 2, i = 0, j = 1 with empty timestamp lists. -/
theorem C5_distance_matrix_witness :
    (create_distance_matrix 2 (calculate_pairwise_overlaps (fun _ _ _ => 0) 2 (fun _ => []) 1 4) 0 1
      = create_distance_matrix 2 (calculate_pairwise_overlaps (fun _ _ _ => 0) 2 (fun _ => []) 1 4) 1 0) ∧
    (0 ≤ create_distance_matrix 2 (calculate_pairwise_overlaps (fun _ _ _ => 0) 2 (fun _ => []) 1 4) 0 1 ∧
      create_distance_matrix 2 (calculate_pairwise_overlaps (fun _ _ _ => 0) 2 (fun _ => []) 1 4) 0 1 ≤ 1) :=
  ⟨(C5_distance_matrix (fun _ _ _ => 0) 2 (fun _ => []) 1 4).1 0 1,
    (C5_distance_matrix (fun _ _ _ => 0) 2 (fun _ => []) 1 4).2 0 1 (by decide)⟩

/-- Folding the Python max step over finite values computes the rational
left-fold of max. -/
lemma pyMax_foldl_val (xs : List ℚ) : ∀ a : ℚ,
    (xs.map EFloat.val).foldl (fun m y => if EFloat.gt y m then y else m)
        (EFloat.val a)
      = EFloat.val (xs.foldl max a) := by
  induction xs with
  | nil => intro a; rfl
  | cons y ys ih =>
      intro a
      simp only [List.map_cons, List.foldl_cons]
      have hstep : (if EFloat.gt (EFloat.val y) (EFloat.val a) then EFloat.val y
          else EFloat.val a) = EFloat.val (max a y) := by
        by_cases h : a < y
        · rw [if_pos (by simp [EFloat.gt, h]), max_eq_right h.le]
        · rw [if_neg (by simp [EFloat.gt, h]), max_eq_left (not_lt.mp h)]
      rw [hstep, ih]

/-- pyMax on a non-empty list of finite values is the finite qMax. -/
lemma pyMax_map_val (x : ℚ) (xs : List ℚ) :
    pyMax ((x :: xs).map EFloat.val) = EFloat.val (qMax (x :: xs)) := by
  simp only [List.map_cons, pyMax, qMax]
  exact pyMax_foldl_val xs x

/-- The seed of a left fold of max is a lower bound of the result. -/
lemma le_foldl_max (xs : List ℚ) : ∀ a : ℚ, a ≤ xs.foldl max a := by
  induction xs with
  | nil => intro a; exact le_refl a
  | cons y ys ih =>
      intro a
      exact le_trans (le_max_left a y) (ih (max a y))

/-- Every member of a list is bounded by a left fold of max over it. -/
lemma mem_le_foldl_max (xs : List ℚ) : ∀ a c : ℚ, c ∈ xs → c ≤ xs.foldl max a := by
  induction xs with
  | nil =>
      intro a c h
      cases h
  | cons y ys ih =>
      intro a c h
      rcases List.mem_cons.mp h with h | h
      · subst h
        exact le_trans (le_max_right a c) (le_foldl_max ys (max a c))
      · exact ih (max a y) c h

/-- Every member of a list is bounded by its qMax. -/
lemma mem_le_qMax (cs : List ℚ) (c : ℚ) (h : c ∈ cs) : c ≤ qMax cs := by
  cases cs with
  | nil => cases h
  | cons x xs =>
      rcases List.mem_cons.mp h with h2 | h2
      · subst h2
        exact le_foldl_max xs c
      · exact mem_le_foldl_max xs x c h2

/-- C2 counterexample: with core distances [1, inf], the item with infinite
core distance receives NaN (from inf / inf), not confidence 0, so the claim
as stated fails on the code. -/
theorem C2_counterexample :
    probabilities [EFloat.val 1, EFloat.inf] = [EFloat.val 1, EFloat.nan] ∧
    EFloat.nan ≠ EFloat.val 0 := by
  constructor
  · have hmax : pyMax [EFloat.val 1, EFloat.inf] = EFloat.inf := rfl
    simp only [probabilities, hmax, List.map_cons, List.map_nil,
      EFloat.div, EFloat.sub]
    norm_num
  · intro h
    cases h

/-- C2 amended: when every core distance is finite (and non-negative, with a
positive maximum, as OPTICS core distances are), each confidence equals
1 - core_distance/max untouched by any clamping, and that value already lies
in [0, 1]; an item with infinite core distance receives NaN, not 0. -/
theorem C2_amended_confidence (cs : List ℚ) (hnn : ∀ c ∈ cs, 0 ≤ c)
    (hpos : 0 < qMax cs) :
    probabilities (cs.map EFloat.val)
        = cs.map (fun c => EFloat.val (1 - c / qMax cs)) ∧
    ∀ c ∈ cs, 0 ≤ 1 - c / qMax cs ∧ 1 - c / qMax cs ≤ 1 := by
  constructor
  · cases cs with
    | nil => rfl
    | cons x xs =>
        unfold probabilities
        rw [pyMax_map_val x xs, List.map_map]
        have hfun : (fun c => EFloat.sub (EFloat.val 1)
              (EFloat.div c (EFloat.val (qMax (x :: xs))))) ∘ EFloat.val
            = fun c => EFloat.val (1 - c / qMax (x :: xs)) := by
          funext c
          simp only [Function.comp_apply, EFloat.div, EFloat.sub]
          rw [if_neg (ne_of_gt hpos)]
        rw [hfun]
  · intro c hc
    have hle : c ≤ qMax cs := mem_le_qMax cs c hc
    have h0 : 0 ≤ c := hnn c hc
    constructor
    · have : c / qMax cs ≤ 1 := (div_le_one hpos).mpr hle
      linarith
    · have : 0 ≤ c / qMax cs := div_nonneg h0 hpos.le
      linarith

/-- C2 amended witness at the finite core distances [1, 2]. -/
theorem C2_amended_confidence_witness :
    probabilities ([(1:ℚ), 2].map EFloat.val)
        = [(1:ℚ), 2].map (fun c => EFloat.val (1 - c / qMax [(1:ℚ), 2])) ∧
    (0 ≤ 1 - (1:ℚ) / qMax [(1:ℚ), 2] ∧ 1 - (1:ℚ) / qMax [(1:ℚ), 2] ≤ 1) := by
  have h := C2_amended_confidence [(1:ℚ), 2]
    (by
      intro c hc
      rcases List.mem_cons.mp hc with h1 | h1
      · rw [h1]; norm_num
      · rcases List.mem_cons.mp h1 with h2 | h2
        · rw [h2]; norm_num
        · cases h2)
    (by
      show (0:ℚ) < qMax [1, 2]
      norm_num [qMax])
  exact ⟨h.1, h.2 1 (by norm_num)⟩
